import Mathlib

/-!
Verification of the telegive-participant service core: the cryptographic
winner selector (`src/utils/winner_selection.py`), the captcha answer
validator (`src/utils/captcha_generator.py`), input validation
(`src/utils/validation.py`), the persistence model (`src/models/*.py`) and
the three core routes (`src/routes/participants.py`,
`src/routes/captcha.py`) as a shallow embedding.  Machine randomness
(`secrets.randbelow`) is modelled by an oracle giving the drawn index at
each call; wall-clock time by explicit `Nat` instants.
-/

namespace Telegive

/-! ### Winner selector: src/utils/winner_selection.py -/

/-- One draw of `secrets.randbelow(n)` at call number `step`: the oracle's
value reduced into `[0, n)`.  Any in-range draw sequence is representable,
and no out-of-range draw is, matching `randbelow`'s contract. -/
def randbelow (oracle : Nat → Nat) (step n : Nat) : Nat :=
  oracle step % n

/-- The sampling loop of `select_winners_cryptographic` (lines 38-45):
`winner_count` iterations, each popping a uniformly drawn index from the
remaining pool (`available_participants.pop(random_index)`), with the
`if not available_participants: break` guard. -/
def selectLoop (oracle : Nat → Nat) : Nat → Nat → List Int → List Int
  | _, 0, _ => []
  | step, k + 1, avail =>
    if avail.isEmpty then []
    else
      let i := randbelow oracle step avail.length
      match avail[i]? with
      | some w => w :: selectLoop oracle (step + 1) k (avail.eraseIdx i)
      | none => []

/-- `WinnerSelector.select_winners_cryptographic` (lines 14-47): empty pool
gives `[]`; `winner_count >= len(participants)` gives a copy of the pool;
`winner_count <= 0` gives `[]`; otherwise sampling without replacement. -/
def select_winners_cryptographic (oracle : Nat → Nat) (participants : List Int)
    (winner_count : Int) : List Int :=
  if participants.isEmpty then []
  else if winner_count ≥ (participants.length : Int) then participants
  else if winner_count ≤ 0 then []
  else selectLoop oracle 0 winner_count.toNat participants

/-- Models `random.seed(seed)` for a string seed: the generator state is
re-initialised as a pure function of the seed string alone (the stdlib
hashes the string into the Mersenne Twister state; the exact mixing is
surrogate here, only its functional dependence on the seed is used). -/
def pySeedString (s : String) : Nat :=
  s.data.foldl (fun a c => (a * 131 + c.toNat) % (2 ^ 64)) 5381

/-- One step of the seeded generator (surrogate for the Mersenne Twister
update: a fixed 64-bit recurrence; deterministic in the state). -/
def prngStep (st : Nat) : Nat :=
  (st * 6364136223846793005 + 1442695040888963407) % (2 ^ 64)

/-- A bounded draw of the seeded generator: next state and an index below `n`. -/
def prngDraw (st n : Nat) : Nat × Nat :=
  (prngStep st, prngStep st % n)

/-- Swap positions `i` and `j` of a list (`x[i], x[j] = x[j], x[i]`). -/
def listSwap (l : List Int) (i j : Nat) : List Int :=
  match l[i]?, l[j]? with
  | some a, some b => (l.set i b).set j a
  | _, _ => l

/-- `random.shuffle`'s Fisher-Yates loop: `for i in reversed(range(1, len(x)))`,
draw `j = randbelow(i+1)`, swap `x[i]` and `x[j]`. -/
def pyShuffleGo (st : Nat) : Nat → List Int → Nat × List Int
  | 0, l => (st, l)
  | i + 1, l =>
    let d := prngDraw st (i + 2)
    pyShuffleGo d.1 i (listSwap l (i + 1) d.2)

/-- `random.shuffle(x)` after `random.seed(seed)`: state and shuffled list. -/
def pyShuffle (st : Nat) (l : List Int) : Nat × List Int :=
  match l.length with
  | 0 => (st, l)
  | n + 1 => pyShuffleGo st n l

/-- `WinnerSelector.select_winners_with_seed` (lines 49-79): the same three
guard branches, then `random.seed(seed)` (overwriting the module's global
generator state `globalState`), a deterministic shuffle of a copy, and the
first `winner_count` elements.  Returns the new global state too. -/
def select_winners_with_seed (globalState : Nat) (participants : List Int)
    (winner_count : Int) (seed : String) : Nat × List Int :=
  if participants.isEmpty then (globalState, [])
  else if winner_count ≥ (participants.length : Int) then (globalState, participants)
  else if winner_count ≤ 0 then (globalState, [])
  else
    let st0 := pySeedString seed
    let r := pyShuffle st0 participants
    (r.1, r.2.take winner_count.toNat)

/-! ### Captcha answer validation: src/utils/captcha_generator.py -/

/-- `str.strip()` over a character list: leading and trailing whitespace
removed (ASCII whitespace; the unicode cases do not arise here). -/
def stripChars (l : List Char) : List Char :=
  ((l.dropWhile Char.isWhitespace).reverse.dropWhile Char.isWhitespace).reverse

/-- `s.strip()`. -/
def pyStrip (s : String) : String :=
  ⟨stripChars s.data⟩

/-- The digit run of a Python base-10 integer literal after the first digit:
digits, with single underscores allowed only between digits
(`int("1_0") == 10`, `int("1__0")` and `int("1_")` raise). -/
def pyDigitsCore (acc : Nat) : List Char → Option Nat
  | [] => some acc
  | c :: rest =>
    if c.isDigit then pyDigitsCore (acc * 10 + (c.toNat - 48)) rest
    else if c = '_' then
      match rest with
      | d :: rest2 =>
        if d.isDigit then pyDigitsCore (acc * 10 + (d.toNat - 48)) rest2 else none
      | [] => none
    else none

/-- A nonempty Python digit run: first character must be a digit. -/
def pyParseDigits : List Char → Option Nat
  | c :: rest => if c.isDigit then pyDigitsCore (c.toNat - 48) rest else none
  | [] => none

/-- `int(s)` on an already-stripped string: optional sign then digits. -/
def pyParseInt (s : String) : Option Int :=
  match s.data with
  | '+' :: rest => (pyParseDigits rest).map Int.ofNat
  | '-' :: rest => (pyParseDigits rest).map (fun n => -(n : Int))
  | l => (pyParseDigits l).map Int.ofNat

/-- `CaptchaGenerator.validate_answer` (lines 58-64):
`int(user_answer.strip()) == correct_answer`, with `ValueError` (parse
failure) and `AttributeError` (`None.strip()`) both caught and returned as
`False`. -/
def validate_answer (user_answer : Option String) (correct_answer : Int) : Bool :=
  match user_answer with
  | none => false
  | some s =>
    match pyParseInt (pyStrip s) with
    | some n => n == correct_answer
    | none => false

/-! ### Input validation: src/utils/validation.py -/

/-- A JSON value arriving in the `winner_count` field (`data.get('winner_count', 1)`
defaults a missing key to the Python int `1`). -/
inductive WCInput
  | wInt (n : Int)
  | wStr (s : String)
  | wBool (b : Bool)
  | wNull
  deriving DecidableEq

/-- Python `int(x)` on a JSON-shaped value: ints pass through, booleans
coerce (`int(True) == 1`), strings are stripped and parsed, `None` raises
`TypeError` (caught by the validator). -/
def pyIntOf : WCInput → Option Int
  | .wInt n => some n
  | .wBool b => some (if b then 1 else 0)
  | .wStr s => pyParseInt (pyStrip s)
  | .wNull => none

/-- `InputValidator.validate_winner_count` (lines 122-148): `int()` coercion,
then the `1 ≤ count ≤ 1000` range check, each failure with its error code. -/
def validate_winner_count (w : WCInput) : Except String Int :=
  match pyIntOf w with
  | none => .error "INVALID_WINNER_COUNT_FORMAT"
  | some n =>
    if n < 1 then .error "INVALID_WINNER_COUNT_MIN"
    else if n > 1000 then .error "INVALID_WINNER_COUNT_MAX"
    else .ok n

/-- `InputValidator.validate_giveaway_id` (lines 45-64) on an already-integral
id (the route receives it as an int URL segment): the `≥ 1` range check. -/
def validate_giveaway_id (g : Int) : Except String Int :=
  if g < 1 then .error "INVALID_GIVEAWAY_ID" else .ok g

/-! ### Data model: src/models/*.py -/

/-- A `participants` row (src/models/participant.py). -/
structure ParticipantRow where
  pid : Nat
  giveaway_id : Int
  user_id : Int
  username : Option String
  first_name : Option String
  last_name : Option String
  captcha_completed : Bool
  subscription_verified : Bool
  subscription_verified_at : Option Nat
  is_winner : Bool
  winner_selected_at : Option Nat
  deriving DecidableEq

/-- A `user_captcha_records` row (src/models/user_captcha_record.py);
`user_id` carries a unique constraint. -/
structure UserCaptchaRecordRow where
  user_id : Int
  captcha_completed : Bool
  captcha_completed_at : Option Nat
  first_participation_at : Option Nat
  total_participations : Int
  total_wins : Int
  last_participation_at : Option Nat
  deriving DecidableEq

/-- A `captcha_sessions` row (src/models/captcha_session.py). -/
structure CaptchaSessionRow where
  sid : Nat
  user_id : Int
  giveaway_id : Int
  question : String
  correct_answer : Int
  attempts : Int
  max_attempts : Int
  completed : Bool
  expires_at : Nat
  created_at : Nat
  deriving DecidableEq

/-- A `winner_selection_log` row (src/models/winner_selection_log.py);
`winner_count_requested` stores the raw `data.get('winner_count', 1)`. -/
structure WinnerSelectionLogRow where
  giveaway_id : Int
  total_participants : Nat
  winner_count_requested : WCInput
  winner_count_selected : Nat
  selection_method : String
  selection_seed : Option String
  selected_user_ids : List Int
  selection_timestamp : Nat
  deriving DecidableEq

/-- The relational store, with the autoincrement counters. -/
structure DB where
  participants : List ParticipantRow
  records : List UserCaptchaRecordRow
  sessions : List CaptchaSessionRow
  logs : List WinnerSelectionLogRow
  nextParticipantId : Nat
  nextSessionId : Nat
  deriving DecidableEq

/-- `Participant.query.filter_by(giveaway_id=g, user_id=u).first()`. -/
def findParticipant (db : DB) (g u : Int) : Option ParticipantRow :=
  db.participants.find? (fun p => p.giveaway_id == g && p.user_id == u)

/-- `UserCaptchaRecord.query.filter_by(user_id=u).first()`. -/
def findRecord (db : DB) (u : Int) : Option UserCaptchaRecordRow :=
  db.records.find? (fun r => r.user_id == u)

/-- Whether a record list holds a completed record for user `u`. -/
def recsCompleted (l : List UserCaptchaRecordRow) (u : Int) : Bool :=
  match l.find? (fun r => r.user_id == u) with
  | some r => r.captcha_completed
  | none => false

/-- Whether the user's global captcha record exists and is completed. -/
def recCompleted (db : DB) (u : Int) : Bool :=
  recsCompleted db.records u

/-- `CaptchaSession.is_expired` (lines 38-40): `utcnow() > expires_at`. -/
def isExpired (now : Nat) (s : CaptchaSessionRow) : Bool :=
  now > s.expires_at

/-- `CaptchaSession.can_attempt` (lines 42-44). -/
def canAttempt (now : Nat) (s : CaptchaSessionRow) : Bool :=
  !s.completed && s.attempts < s.max_attempts && !isExpired now s

/-- `CaptchaSession.create_session` (lines 26-36): `attempts`, `max_attempts`
and `completed` take their column defaults (0, 3, false);
`expires_at = utcnow() + timedelta(minutes=timeout_minutes)`. -/
def createSession (sid : Nat) (user_id giveaway_id : Int) (question : String)
    (correct_answer : Int) (timeout_minutes now : Nat) : CaptchaSessionRow :=
  { sid := sid, user_id := user_id, giveaway_id := giveaway_id,
    question := question, correct_answer := correct_answer,
    attempts := 0, max_attempts := 3, completed := false,
    expires_at := now + timeout_minutes * 60, created_at := now }

/-- Append a session row, advancing the autoincrement counter. -/
def addSession (db : DB) (s : CaptchaSessionRow) : DB :=
  { db with sessions := db.sessions ++ [s], nextSessionId := db.nextSessionId + 1 }

/-- Append a participant row, advancing the autoincrement counter. -/
def addParticipant (db : DB) (p : ParticipantRow) : DB :=
  { db with participants := db.participants ++ [p]
            nextParticipantId := db.nextParticipantId + 1 }

/-- Append a user captcha record. -/
def addRecord (db : DB) (r : UserCaptchaRecordRow) : DB :=
  { db with records := db.records ++ [r] }

/-- Append a winner selection log row (`WinnerSelectionLog.create_log` +
`db.session.add`); `create_log` sets `winner_count_selected` to
`len(selected_user_ids)`. -/
def addLog (db : DB) (l : WinnerSelectionLogRow) : DB :=
  { db with logs := db.logs ++ [l] }

/-- Mutate the (unique-keyed) record of user `u` in place with `f`. -/
def updRecordRow (db : DB) (u : Int) (f : UserCaptchaRecordRow → UserCaptchaRecordRow) : DB :=
  { db with records := db.records.map (fun t => if t.user_id == u then f t else t) }

/-- Mutate the session with id `sid` in place with `f`. -/
def updSessionRow (db : DB) (sid : Nat) (f : CaptchaSessionRow → CaptchaSessionRow) : DB :=
  { db with sessions := db.sessions.map (fun t => if t.sid == sid then f t else t) }

/-! ### Collaborator boundary and generator oracles -/

/-- `telegive_service.get_giveaway`'s payload, as the routes consume it. -/
structure GiveawayInfo where
  account_id : Int
  deriving DecidableEq

/-- `subscription_checker.verify_subscription`'s outcome. -/
structure SubscriptionResult where
  success : Bool
  is_subscribed : Bool
  deriving DecidableEq

/-- `captcha_generator.generate_captcha_data()`'s payload (question, answer,
and the env-configured `max_attempts` / `timeout_minutes`). -/
structure CaptchaData where
  question : String
  correct_answer : Int
  max_attempts : Int
  timeout_minutes : Nat
  deriving DecidableEq

/-- The per-registration record update (`total_participations += 1`,
`last_participation_at = utcnow()`). -/
def bumpParticipation (now : Nat) (r : UserCaptchaRecordRow) : UserCaptchaRecordRow :=
  { r with total_participations := r.total_participations + 1
           last_participation_at := some now }

/-- The registration commit: insert the `Participant` row and bump the
user's counters (one transaction in both routes).  Returns the new state
and the fresh participant id. -/
def commitParticipation (db : DB) (g u : Int) (username fn ln : Option String)
    (now : Nat) : DB × Nat :=
  let p : ParticipantRow :=
    { pid := db.nextParticipantId, giveaway_id := g, user_id := u,
      username := username, first_name := fn, last_name := ln,
      captcha_completed := true, subscription_verified := true,
      subscription_verified_at := some now, is_winner := false,
      winner_selected_at := none }
  (updRecordRow (addParticipant db p) u (bumpParticipation now), p.pid)

/-- The correct-answer record write of `validate_captcha` (lines 70-82):
set `captcha_completed=true` on the user's record (first time only), or
create the record completed if absent. -/
def latchRecord (db : DB) (u : Int) (now : Nat) : DB :=
  match findRecord db u with
  | some r =>
    if !r.captcha_completed then
      updRecordRow db u (fun t =>
        { t with captcha_completed := true, captcha_completed_at := some now })
    else db
  | none =>
    addRecord db
      { user_id := u, captcha_completed := true, captcha_completed_at := some now,
        first_participation_at := some now, total_participations := 0,
        total_wins := 0, last_participation_at := some now }

/-! ### Route: POST /api/participants/register
(src/routes/participants.py, register_participation, lines 12-149) -/

/-- The external collaborators' answers for one register request. -/
structure RegEnv where
  giveaway_active : Bool
  giveaway : Option GiveawayInfo
  subscription : SubscriptionResult
  captcha : CaptchaData

/-- One register request after JSON decoding; `valid` is the outcome of
`input_validator.validate_participation_request`. -/
structure RegInput where
  valid : Bool
  giveaway_id : Int
  user_id : Int
  username : Option String
  first_name : Option String
  last_name : Option String

/-- The register endpoint's responses. -/
inductive RegResponse
  | validationError
  | giveawayNotActive
  | alreadyParticipated
  | requiresCaptcha (question : String) (session_id : Nat) (attempts_remaining : Int)
  | giveawayNotFound
  | subscriptionError
  | notSubscribed
  | confirmed (participant_id : Nat)
  deriving DecidableEq

/-- `register_participation`: validation, active check, duplicate check,
global captcha check (issuing a `CaptchaSession` when the user has no
completed `UserCaptchaRecord`), subscription verification, then the commit
creating the `Participant` row and bumping the user's counters.  (The
source's `else` at line 125 creating a fresh record is unreachable: the
captcha branch at line 55 already returned whenever the record was absent.) -/
def register_participation (env : RegEnv) (now : Nat) (inp : RegInput) (db : DB) :
    DB × RegResponse :=
  if !inp.valid then (db, .validationError)
  else if !env.giveaway_active then (db, .giveawayNotActive)
  else
    match findParticipant db inp.giveaway_id inp.user_id with
    | some _ => (db, .alreadyParticipated)
    | none =>
      let r? := findRecord db inp.user_id
      if !((r?.map (·.captcha_completed)).getD false) then
        let s := createSession db.nextSessionId inp.user_id inp.giveaway_id
          env.captcha.question env.captcha.correct_answer env.captcha.timeout_minutes now
        (addSession db s, .requiresCaptcha env.captcha.question s.sid env.captcha.max_attempts)
      else
        match env.giveaway with
        | none => (db, .giveawayNotFound)
        | some _ =>
          if !env.subscription.success then (db, .subscriptionError)
          else if !env.subscription.is_subscribed then (db, .notSubscribed)
          else
            let c := commitParticipation db inp.giveaway_id inp.user_id
              inp.username inp.first_name inp.last_name now
            (c.1, .confirmed c.2)

/-! ### Route: POST /api/participants/validate-captcha
(src/routes/captcha.py, validate_captcha, lines 9-200) -/

/-- The collaborators' answers for one validate-captcha request;
`newCaptcha` is what `generate_captcha_data()` would produce if the
attempt-exhaustion branch regenerates a question. -/
structure VCEnv where
  giveaway : Option GiveawayInfo
  subscription : SubscriptionResult
  newCaptcha : CaptchaData

/-- One validate-captcha request after JSON decoding; `valid` is
`input_validator.validate_captcha_request`'s outcome, `answer` the
validated integer answer. -/
structure VCInput where
  valid : Bool
  user_id : Int
  giveaway_id : Int
  answer : Int

/-- The validate-captcha endpoint's responses. -/
inductive VCResponse
  | invalidInput
  | sessionNotFound
  | expired
  | attemptsExceeded
  | giveawayNotFound
  | subscriptionError
  | notSubscribed
  | alreadyParticipant (participant_id : Nat)
  | confirmed (participant_id : Nat)
  | wrongAnswer (attempts_remaining : Int)
  | newQuestion (question : String) (attempts_remaining : Int)
  deriving DecidableEq

/-- Of two sessions, the one `order_by(created_at.desc()).first()` ranks
first (ties broken towards the higher autoincrement id). -/
def laterSession (a b : CaptchaSessionRow) : CaptchaSessionRow :=
  if b.created_at > a.created_at ∨ (b.created_at = a.created_at ∧ b.sid > a.sid)
  then b else a

/-- `CaptchaSession.query.filter_by(user_id=u, giveaway_id=g, completed=False)
.order_by(created_at.desc()).first()` (lines 30-34). -/
def findActiveSession (db : DB) (u g : Int) : Option CaptchaSessionRow :=
  match db.sessions.filter (fun s => s.user_id == u && s.giveaway_id == g && !s.completed) with
  | [] => none
  | s :: rest => some (rest.foldl laterSession s)

/-- `validate_captcha`, instrumented with the list of states committed by
each `db.session.commit()` in order (the returned `DB` is the last one, or
the input when nothing was committed).  The correct-answer path commits the
completed session and latched record FIRST (line 84), then runs the
giveaway/subscription checks, and only a second commit (line 148) writes
the `Participant` row; the wrong-answer path commits the attempt increment
and, on exhaustion, a regenerated fresh session. -/
def validate_captcha (env : VCEnv) (now : Nat) (inp : VCInput) (db : DB) :
    DB × VCResponse × List DB :=
  if !inp.valid then (db, .invalidInput, [])
  else
    match findActiveSession db inp.user_id inp.giveaway_id with
    | none => (db, .sessionNotFound, [])
    | some s =>
      if isExpired now s then (db, .expired, [])
      else if !canAttempt now s then (db, .attemptsExceeded, [])
      else
        let dbA := updSessionRow db s.sid (fun t => { t with attempts := t.attempts + 1 })
        if validate_answer (some (toString inp.answer)) s.correct_answer then
          let dbB := updSessionRow dbA s.sid (fun t => { t with completed := true })
          let dbC := latchRecord dbB inp.user_id now
          match env.giveaway with
          | none => (dbC, .giveawayNotFound, [dbC])
          | some _ =>
            if !env.subscription.success then (dbC, .subscriptionError, [dbC])
            else if !env.subscription.is_subscribed then (dbC, .notSubscribed, [dbC])
            else
              match findParticipant dbC inp.giveaway_id inp.user_id with
              | some p => (dbC, .alreadyParticipant p.pid, [dbC])
              | none =>
                let c := commitParticipation dbC inp.giveaway_id inp.user_id
                  none none none now
                (c.1, .confirmed c.2, [dbC, c.1])
        else
          let remaining := s.max_attempts - (s.attempts + 1)
          if remaining ≤ 0 then
            let ns := createSession dbA.nextSessionId inp.user_id inp.giveaway_id
              env.newCaptcha.question env.newCaptcha.correct_answer
              env.newCaptcha.timeout_minutes now
            let dbE := addSession dbA ns
            (dbE, .newQuestion env.newCaptcha.question env.newCaptcha.max_attempts, [dbA, dbE])
          else (dbA, .wrongAnswer remaining, [dbA])

/-! ### Route: POST /api/participants/generate-captcha
(src/routes/captcha.py, generate_captcha, lines 244-311) -/

/-- The generate-captcha endpoint's responses. -/
inductive GCResponse
  | invalidInput
  | alreadyCompleted
  | ok (question : String) (session_id : Nat)
  deriving DecidableEq

/-- `generate_captcha`: input validation, the global-latch refusal, then a
fresh session. -/
def generate_captcha (now : Nat) (captcha : CaptchaData) (valid : Bool)
    (user_id giveaway_id : Int) (db : DB) : DB × GCResponse :=
  if !valid then (db, .invalidInput)
  else if recCompleted db user_id then (db, .alreadyCompleted)
  else
    let s := createSession db.nextSessionId user_id giveaway_id
      captcha.question captcha.correct_answer captcha.timeout_minutes now
    (addSession db s, .ok captcha.question s.sid)

/-! ### Route: POST /api/participants/captcha-sessions/cleanup
(src/routes/captcha.py, cleanup_expired_sessions, lines 313-340) -/

/-- Delete every session with `expires_at < utcnow()`. -/
def cleanup_sessions (now : Nat) (db : DB) : DB :=
  { db with sessions := db.sessions.filter (fun s => !(s.expires_at < now)) }

/-! ### Route: POST /api/participants/select-winners/:giveaway_id
(src/routes/participants.py, select_winners, lines 200-302) -/

/-- The run's machine context: `clock k` is the value of the k-th
`datetime.utcnow()` call of the run, `oracle k` the k-th `secrets.randbelow`
draw. -/
structure SWEnv where
  clock : Nat → Nat
  oracle : Nat → Nat

/-- One select-winners request: the URL giveaway id and the raw JSON
`winner_count` (a missing key arrives as `.wInt 1`). -/
structure SWInput where
  giveaway_id : Int
  winner_count_raw : WCInput

/-- The select-winners endpoint's responses. -/
inductive SWResponse
  | validationError (code : String)
  | insufficientParticipants
  | ok (winners : List Int) (total_participants : Nat) (selection_timestamp : Nat)
  deriving DecidableEq

/-- The row filter of the eligible-pool query (giveaway, captcha done,
subscription verified). -/
def eligRow (g : Int) (p : ParticipantRow) : Bool :=
  p.giveaway_id == g && p.captcha_completed && p.subscription_verified

/-- `Participant.query.filter_by(giveaway_id=g, captcha_completed=True,
subscription_verified=True).all()`. -/
def eligibleParticipants (db : DB) (g : Int) : List ParticipantRow :=
  db.participants.filter (eligRow g)

/-- `winner_count = len(eligible)` when the request exceeds the pool
(lines 241-242). -/
def effectiveCount (wc : Int) (poolLen : Nat) : Int :=
  if wc > (poolLen : Int) then (poolLen : Int) else wc

/-- Whether a row is the target of `next(p for p in eligible_participants
if p.user_id == user_id)`: eligible for `g` and owned by `uid`. -/
def matchRow (g uid : Int) (p : ParticipantRow) : Bool :=
  eligRow g p && p.user_id == uid

/-- The marked version of a participant row: `p.is_winner = True;
p.winner_selected_at = datetime.utcnow()` with the reading `ts`. -/
def markRow (p : ParticipantRow) (ts : Nat) : ParticipantRow :=
  { p with is_winner := true, winner_selected_at := some ts }

/-- `next(p for p in eligible_participants if p.user_id == user_id)` then
marking: the first row satisfying the eligibility filter with this user id
is marked; the rest of the list is untouched. -/
def markWinnerFirst (g uid : Int) (ts : Nat) : List ParticipantRow → List ParticipantRow
  | [] => []
  | p :: rest =>
    if matchRow g uid p then markRow p ts :: rest
    else p :: markWinnerFirst g uid ts rest

/-- The marking loop over `selected_user_ids` (lines 253-263), one
`datetime.utcnow()` reading per winner, clock calls `k, k+1, ...`. -/
def markAll (g : Int) (clock : Nat → Nat) : Nat → List Int → List ParticipantRow →
    List ParticipantRow
  | _, [], ps => ps
  | k, uid :: rest, ps => markAll g clock (k + 1) rest (markWinnerFirst g uid (clock k) ps)

/-- `captcha_record.total_wins += 1` for one winner (lines 278-281); a user
without a record is skipped. -/
def bumpWins (db : DB) (uid : Int) : DB :=
  updRecordRow db uid (fun r => { r with total_wins := r.total_wins + 1 })

/-- The select-winners route: validation, eligible-pool snapshot, capping,
cryptographic selection (`use_seed` defaults to false, so the selector's
result dict carries `selection_method='cryptographic_random'`, a null seed
and a `utcnow()` timestamp at clock call 0), winner marking (clock calls
1..n), the audit log (timestamp at clock call n+1), and the win counters. -/
def select_winners_route (env : SWEnv) (inp : SWInput) (db : DB) : DB × SWResponse :=
  match validate_giveaway_id inp.giveaway_id with
  | .error c => (db, .validationError c)
  | .ok g =>
    match validate_winner_count inp.winner_count_raw with
    | .error c => (db, .validationError c)
    | .ok wc0 =>
      let eligible := eligibleParticipants db g
      if eligible.isEmpty then (db, .insufficientParticipants)
      else
        let wc := effectiveCount wc0 eligible.length
        let ids := eligible.map (·.user_id)
        let selected := select_winners_cryptographic env.oracle ids wc
        let selTs := env.clock 0
        let db1 := { db with participants := markAll g env.clock 1 selected db.participants }
        let log : WinnerSelectionLogRow :=
          { giveaway_id := g, total_participants := eligible.length,
            winner_count_requested := inp.winner_count_raw,
            winner_count_selected := selected.length,
            selection_method := "cryptographic_random", selection_seed := none,
            selected_user_ids := selected,
            selection_timestamp := env.clock (1 + selected.length) }
        let db2 := addLog db1 log
        let db3 := selected.foldl bumpWins db2
        (db3, .ok selected eligible.length selTs)

/-- The number of rows of giveaway `g` with `is_winner=true` in a row list. -/
def countWinnersL (l : List ParticipantRow) (g : Int) : Nat :=
  (l.filter (fun p => p.giveaway_id == g && p.is_winner)).length

/-- The number of `Participant` rows of giveaway `g` with `is_winner=true`. -/
def countWinners (db : DB) (g : Int) : Nat :=
  countWinnersL db.participants g

/-! ### The operations as one step relation (for trace invariants) -/

/-- One core operation with its request-local context. -/
inductive Op
  | register (env : RegEnv) (now : Nat) (inp : RegInput)
  | validateCaptcha (env : VCEnv) (now : Nat) (inp : VCInput)
  | generateCaptcha (now : Nat) (captcha : CaptchaData) (valid : Bool) (user_id giveaway_id : Int)
  | selectWinners (env : SWEnv) (inp : SWInput)
  | cleanupSessions (now : Nat)

/-- The state transition of one operation. -/
def applyOp (db : DB) : Op → DB
  | .register env now inp => (register_participation env now inp db).1
  | .validateCaptcha env now inp => (validate_captcha env now inp db).1
  | .generateCaptcha now cd v u g => (generate_captcha now cd v u g db).1
  | .selectWinners env inp => (select_winners_route env inp db).1
  | .cleanupSessions now => cleanup_sessions now db

/-! ### Concrete states used by witnesses and counterexamples -/

/-- A store holding one active captcha session for user 7 in giveaway 1
(answer 4, no attempts yet, expires at instant 100). -/
def wSessionDB : DB :=
  ⟨[], [], [⟨1, 7, 1, "Q", 4, 0, 3, false, 100, 50⟩], [], 1, 2⟩

/-- The same store with the session already at 2 of 3 attempts. -/
def wExhaustDB : DB :=
  ⟨[], [], [⟨1, 7, 1, "Q", 4, 2, 3, false, 100, 50⟩], [], 1, 2⟩

/-- Collaborators all succeeding for validate-captcha. -/
def wEnvVC : VCEnv := ⟨some ⟨9⟩, ⟨true, true⟩, ⟨"NQ", 5, 3, 10⟩⟩

/-- Collaborators with the subscription verifier failing. -/
def wEnvSubFail : VCEnv := ⟨some ⟨9⟩, ⟨false, false⟩, ⟨"NQ", 5, 3, 10⟩⟩

/-- A validate-captcha request by user 7 for giveaway 1 with the correct
answer 4. -/
def wVCInp : VCInput := ⟨true, 7, 1, 4⟩

/-- The same request with the wrong answer 9. -/
def wVCInpWrong : VCInput := ⟨true, 7, 1, 9⟩

/-- A store where user 7 has a completed (latched) captcha record. -/
def wRegDB : DB := ⟨[], [⟨7, true, some 1, some 1, 1, 0, some 1⟩], [], [], 1, 1⟩

/-- Collaborators all succeeding for registration. -/
def wRegEnv : RegEnv := ⟨true, some ⟨9⟩, ⟨true, true⟩, ⟨"Q2", 3, 3, 10⟩⟩

/-- A registration request by (latched) user 7 for giveaway 2. -/
def wRegInp : RegInput := ⟨true, 2, 7, none, none, none⟩

/-- A store with two eligible participants (users 7 and 8) for giveaway 1,
none yet a winner. -/
def wSWDB : DB :=
  ⟨[⟨1, 1, 7, none, none, none, true, true, some 1, false, none⟩,
    ⟨2, 1, 8, none, none, none, true, true, some 1, false, none⟩],
   [⟨7, true, some 1, some 1, 1, 0, some 1⟩], [], [], 3, 1⟩

/-- A selection run context whose clock advances by one per `utcnow()` call
and whose CSPRNG always draws index 0. -/
def wSWEnv : SWEnv := ⟨fun k => k, fun _ => 0⟩

/-! ### Properties of the selector loop -/

theorem cons_eraseIdx_perm (l : List Int) (i : Nat) (hi : i < l.length) :
    List.Perm (l[i] :: l.eraseIdx i) l := by
  conv_rhs => rw [← List.take_append_drop i l]
  rw [List.eraseIdx_eq_take_drop_succ, List.drop_eq_getElem_cons hi]
  exact List.perm_middle.symm

theorem selectLoop_length (oracle : Nat → Nat) :
    ∀ (k step : Nat) (avail : List Int),
      (selectLoop oracle step k avail).length = min k avail.length := by
  intro k
  induction k with
  | zero => intro step avail; simp [selectLoop]
  | succ k ih =>
    intro step avail
    by_cases h : avail.isEmpty
    · rw [selectLoop, if_pos h]
      rw [List.isEmpty_iff.mp h]
      simp
    · have hlen : 0 < avail.length := by
        cases avail with
        | nil => simp at h
        | cons a l => simp
      have hi : randbelow oracle step avail.length < avail.length :=
        Nat.mod_lt _ hlen
      rw [selectLoop, if_neg (by simp [h])]
      have herase : (avail.eraseIdx (randbelow oracle step avail.length)).length + 1 =
          avail.length := List.length_eraseIdx_add_one hi
      simp only [List.getElem?_eq_getElem hi, List.length_cons, ih]
      omega

theorem selectLoop_subperm (oracle : Nat → Nat) :
    ∀ (k step : Nat) (avail : List Int),
      List.Subperm (selectLoop oracle step k avail) avail := by
  intro k
  induction k with
  | zero => intro step avail; simp [selectLoop]
  | succ k ih =>
    intro step avail
    by_cases h : avail.isEmpty
    · rw [selectLoop, if_pos h]
      simp
    · have hlen : 0 < avail.length := by
        cases avail with
        | nil => simp at h
        | cons a l => simp
      have hi : randbelow oracle step avail.length < avail.length :=
        Nat.mod_lt _ hlen
      rw [selectLoop, if_neg (by simp [h])]
      simp only [List.getElem?_eq_getElem hi]
      have hsub : List.Subperm
          (avail[randbelow oracle step avail.length] ::
            selectLoop oracle (step + 1) k
              (avail.eraseIdx (randbelow oracle step avail.length)))
          (avail[randbelow oracle step avail.length] ::
            avail.eraseIdx (randbelow oracle step avail.length)) :=
        (List.subperm_cons _).mpr (ih _ _)
      exact hsub.trans (cons_eraseIdx_perm _ _ hi).subperm

theorem crypto_length (oracle : Nat → Nat) (p : List Int) (n : Int) :
    (select_winners_cryptographic oracle p n).length = min n.toNat p.length := by
  rw [select_winners_cryptographic]
  by_cases h0 : p.isEmpty
  · simp [h0, List.isEmpty_iff.mp h0]
  · simp only [h0, if_false]
    by_cases h1 : n ≥ (p.length : Int)
    · have : p.length ≤ n.toNat := by omega
      simp [h1, Nat.min_eq_right this]
    · simp only [h1, if_false]
      by_cases h2 : n ≤ 0
      · have : n.toNat = 0 := by omega
        simp [h2, this]
      · simp [h2, selectLoop_length]

theorem crypto_subperm (oracle : Nat → Nat) (p : List Int) (n : Int) :
    List.Subperm (select_winners_cryptographic oracle p n) p := by
  rw [select_winners_cryptographic]
  by_cases h0 : p.isEmpty
  · simp [h0]
  · simp only [h0, if_false]
    by_cases h1 : n ≥ (p.length : Int)
    · simp only [h1, if_true]
      exact List.Subperm.refl p
    · simp only [h1, if_false]
      by_cases h2 : n ≤ 0
      · simp [h2]
      · simp [h2, selectLoop_subperm]

theorem subperm_nodup {l₁ l₂ : List Int} (h : List.Subperm l₁ l₂) (hn : l₂.Nodup) :
    l₁.Nodup := by
  obtain ⟨l, hp, hs⟩ := h
  exact hp.nodup_iff.mp (hn.sublist hs)

/-! ### Claim theorems: the winner selector -/

/-- C1 (counterexample): on the two-element pool `[5, 5]` with `N = 2`, the
selector returns `[5, 5]`, which is not a list of distinct elements, so the
claim fails for pools with duplicate entries. -/
theorem c1_duplicate_pool_counterexample :
    select_winners_cryptographic (fun _ => 0) [(5 : Int), 5] 2 = [5, 5] ∧
    ¬ List.Nodup [(5 : Int), 5] := by
  exact ⟨by decide, by decide⟩

/-- C1 (amended): for every duplicate-free participant list of size P, every
requested count N and every CSPRNG draw sequence,
`select_winners_cryptographic` returns exactly min(N, P) distinct elements
drawn from the input; for N ≤ 0 it returns the empty list, and for N ≥ P it
returns the input list itself (every element exactly once). -/
theorem c1_selection_correct_nodup :
    ∀ (oracle : Nat → Nat) (p : List Int) (n : Int), p.Nodup →
      (select_winners_cryptographic oracle p n).length = min n.toNat p.length ∧
      (select_winners_cryptographic oracle p n).Nodup ∧
      (∀ x ∈ select_winners_cryptographic oracle p n, x ∈ p) ∧
      (n ≤ 0 → select_winners_cryptographic oracle p n = []) ∧
      ((p.length : Int) ≤ n → select_winners_cryptographic oracle p n = p) := by
  intro oracle p n hnd
  refine ⟨crypto_length _ _ _, subperm_nodup (crypto_subperm _ _ _) hnd,
    fun x hx => (crypto_subperm oracle p n).subset hx, ?_, ?_⟩
  · intro h
    rw [select_winners_cryptographic]
    by_cases h0 : p.isEmpty
    · simp [h0]
    · have hlen : 0 < p.length := by
        cases p with
        | nil => simp at h0
        | cons a l => simp
      have h1 : ¬ (n ≥ (p.length : Int)) := by omega
      simp [h0, h1, h]
  · intro h
    rw [select_winners_cryptographic]
    by_cases h0 : p.isEmpty
    · rw [if_pos h0, List.isEmpty_iff.mp h0]
    · simp [h0, show n ≥ (p.length : Int) from h]

/-- C1 (witness): the amended theorem applied to the pool `[1, 2, 3]` with
`N = 2` and the all-zero draw sequence. -/
theorem c1_selection_correct_nodup_witness :
    (select_winners_cryptographic (fun _ => 0) [(1 : Int), 2, 3] 2).length =
      min (Int.toNat 2) ([(1 : Int), 2, 3].length) ∧
    (select_winners_cryptographic (fun _ => 0) [(1 : Int), 2, 3] 2).Nodup ∧
    (∀ x ∈ select_winners_cryptographic (fun _ => 0) [(1 : Int), 2, 3] 2,
      x ∈ [(1 : Int), 2, 3]) ∧
    ((2 : Int) ≤ 0 → select_winners_cryptographic (fun _ => 0) [(1 : Int), 2, 3] 2 = []) ∧
    (([(1 : Int), 2, 3].length : Int) ≤ 2 →
      select_winners_cryptographic (fun _ => 0) [(1 : Int), 2, 3] 2 = [(1 : Int), 2, 3]) :=
  c1_selection_correct_nodup (fun _ => 0) [(1 : Int), 2, 3] 2 (by decide)

/-- C5: the deterministic-seed selector is a function of (participants,
winner_count, seed) alone: whatever the module's global generator state was
before the call (it is overwritten by `random.seed(seed)`), two invocations
with the same arguments return the same output list. -/
theorem c5_seeded_selection_deterministic :
    ∀ (g1 g2 : Nat) (p : List Int) (n : Int) (seed : String),
      (select_winners_with_seed g1 p n seed).2 = (select_winners_with_seed g2 p n seed).2 := by
  intro g1 g2 p n seed
  by_cases h0 : p.isEmpty <;> by_cases h1 : n ≥ (p.length : Int) <;>
    by_cases h2 : n ≤ 0 <;> simp [select_winners_with_seed, h0, h1, h2]

/-! ### Claim theorem: the captcha answer validator -/

/-- C9: `validate_answer` is total (it returns a `Bool` for every input,
`None` included), and returns true exactly when the input is a string whose
whitespace-trimmed form parses as an integer equal to `correct_answer`;
in particular the four specified cases evaluate as stated. -/
theorem c9_validate_answer_spec :
    (∀ (ua : Option String) (c : Int),
      validate_answer ua c = true ↔ ∃ s, ua = some s ∧ pyParseInt (pyStrip s) = some c) ∧
    validate_answer (some "8") 8 = true ∧
    validate_answer (some " 8 ") 8 = true ∧
    validate_answer (some "eight") 8 = false ∧
    validate_answer none 8 = false := by
  refine ⟨?_, by decide, by decide, by decide, by decide⟩
  intro ua c
  cases ua with
  | none => simp [validate_answer]
  | some s =>
    simp only [validate_answer, Option.some.injEq]
    cases h : pyParseInt (pyStrip s) with
    | none => simp [h]
    | some n => simp [h, beq_iff_eq]

/-! ### Record-lookup stability lemmas -/

theorem find?_user_append (l₁ l₂ : List UserCaptchaRecordRow) (u : Int)
    (r : UserCaptchaRecordRow) (h : l₁.find? (fun t => t.user_id == u) = some r) :
    (l₁ ++ l₂).find? (fun t => t.user_id == u) = some r := by
  induction l₁ with
  | nil => simp [List.find?] at h
  | cons a l ih =>
    rw [List.find?_cons] at h
    rw [List.cons_append, List.find?_cons]
    by_cases ha : a.user_id == u
    · simp only [ha] at h ⊢
      exact h
    · simp only [Bool.not_eq_true] at ha
      simp only [ha] at h ⊢
      exact ih h

theorem find?_user_map (l : List UserCaptchaRecordRow)
    (f : UserCaptchaRecordRow → UserCaptchaRecordRow)
    (hid : ∀ t, (f t).user_id = t.user_id) (u : Int) :
    (l.map f).find? (fun t => t.user_id == u) =
      (l.find? (fun t => t.user_id == u)).map f := by
  induction l with
  | nil => rfl
  | cons a l ih =>
    rw [List.map_cons, List.find?_cons, List.find?_cons]
    by_cases ha : a.user_id == u
    · have ha' : ((f a).user_id == u) = true := by rw [hid]; exact ha
      simp only [ha, ha']
      rfl
    · have ha' : ((f a).user_id == u) = false := by
        rw [hid]
        simpa using ha
      simp only [Bool.not_eq_true] at ha
      simp only [ha, ha']
      exact ih

theorem recsCompleted_map_mono (l : List UserCaptchaRecordRow) (u' : Int)
    (g : UserCaptchaRecordRow → UserCaptchaRecordRow)
    (hid : ∀ t, (g t).user_id = t.user_id)
    (hmono : ∀ t, t.captcha_completed = true → (g t).captcha_completed = true)
    (h : recsCompleted l u' = true) : recsCompleted (l.map g) u' = true := by
  unfold recsCompleted at h ⊢
  rw [find?_user_map _ _ hid]
  cases hf : l.find? (fun t => t.user_id == u') with
  | none => rw [hf] at h; exact absurd h (by simp)
  | some r =>
    rw [hf] at h
    exact hmono r h

theorem recsCompleted_append (l l₂ : List UserCaptchaRecordRow) (u' : Int)
    (h : recsCompleted l u' = true) : recsCompleted (l ++ l₂) u' = true := by
  unfold recsCompleted at h ⊢
  cases hf : l.find? (fun t => t.user_id == u') with
  | none => rw [hf] at h; exact absurd h (by simp)
  | some r0 =>
    rw [hf] at h
    rw [find?_user_append _ _ _ _ hf]
    exact h

theorem recsCompleted_updRow (l : List UserCaptchaRecordRow) (u u' : Int)
    (f : UserCaptchaRecordRow → UserCaptchaRecordRow)
    (hid : ∀ t, (f t).user_id = t.user_id)
    (hmono : ∀ t, t.captcha_completed = true → (f t).captcha_completed = true)
    (h : recsCompleted l u' = true) :
    recsCompleted (l.map (fun t => if t.user_id == u then f t else t)) u' = true := by
  refine recsCompleted_map_mono l u' _ ?_ ?_ h
  · intro t
    by_cases ht : t.user_id == u <;> simp [ht, hid]
  · intro t ht
    by_cases hc : t.user_id == u <;> simp [hc, hmono t ht, ht]

theorem recCompleted_eq_getD (db : DB) (u : Int) :
    recCompleted db u = ((findRecord db u).map (·.captcha_completed)).getD false := by
  unfold recCompleted recsCompleted findRecord
  cases db.records.find? (fun r => r.user_id == u) <;> rfl

/-! ### The captcha latch is preserved by every operation -/

theorem latch_latchRecord (db : DB) (u' u : Int) (now : Nat)
    (h : recCompleted db u' = true) : recCompleted (latchRecord db u now) u' = true := by
  unfold latchRecord
  split
  · split
    · exact recsCompleted_updRow db.records u u' _ (fun t => rfl) (fun t ht => rfl) h
    · exact h
  · exact recsCompleted_append db.records _ u' h

theorem latch_commitParticipation (db : DB) (g u u' : Int)
    (un fn ln : Option String) (now : Nat) (h : recCompleted db u' = true) :
    recCompleted (commitParticipation db g u un fn ln now).1 u' = true :=
  recsCompleted_updRow db.records u u' _ (fun t => rfl) (fun t ht => ht) h

theorem latch_register (env : RegEnv) (now : Nat) (inp : RegInput) (db : DB) (u : Int)
    (h : recCompleted db u = true) :
    recCompleted (register_participation env now inp db).1 u = true := by
  unfold register_participation
  dsimp only
  repeat' split
  all_goals first
    | exact h
    | exact latch_commitParticipation db inp.giveaway_id inp.user_id u
        inp.username inp.first_name inp.last_name now h

theorem latch_bumpWinsAll :
    ∀ (sel : List Int) (db : DB) (u : Int), recCompleted db u = true →
      recCompleted (sel.foldl bumpWins db) u = true := by
  intro sel
  induction sel with
  | nil => intro db u h; exact h
  | cons a l ih =>
    intro db u h
    exact ih _ _ (recsCompleted_updRow db.records a u _ (fun t => rfl) (fun t ht => ht) h)

theorem latch_validate (env : VCEnv) (now : Nat) (inp : VCInput) (db : DB) (u : Int)
    (h : recCompleted db u = true) :
    recCompleted (validate_captcha env now inp db).1 u = true := by
  unfold validate_captcha
  dsimp only
  repeat' split
  all_goals first
    | exact h
    | exact latch_latchRecord _ u inp.user_id now h
    | exact latch_commitParticipation _ inp.giveaway_id inp.user_id u
        none none none now (latch_latchRecord _ u inp.user_id now h)

theorem latch_generate (now : Nat) (cd : CaptchaData) (v : Bool) (uid gid : Int)
    (db : DB) (u : Int) (h : recCompleted db u = true) :
    recCompleted (generate_captcha now cd v uid gid db).1 u = true := by
  unfold generate_captcha
  repeat' split
  all_goals exact h

theorem latch_select (env : SWEnv) (inp : SWInput) (db : DB) (u : Int)
    (h : recCompleted db u = true) :
    recCompleted (select_winners_route env inp db).1 u = true := by
  unfold select_winners_route
  dsimp only
  repeat' split
  all_goals first
    | exact h
    | exact latch_bumpWinsAll _ _ u h

theorem latch_cleanup (now : Nat) (db : DB) (u : Int) (h : recCompleted db u = true) :
    recCompleted (cleanup_sessions now db) u = true := h

/-! ### Claim theorems: the captcha one-way latch (C2) -/

theorem latch_applyOp (db : DB) (op : Op) (u : Int) (h : recCompleted db u = true) :
    recCompleted (applyOp db op) u = true := by
  cases op with
  | register env now inp => exact latch_register env now inp db u h
  | validateCaptcha env now inp => exact latch_validate env now inp db u h
  | generateCaptcha now cd v uid gid => exact latch_generate now cd v uid gid db u h
  | selectWinners env inp => exact latch_select env inp db u h
  | cleanupSessions now => exact h

theorem latch_trace :
    ∀ (ops : List Op) (db : DB) (u : Int), recCompleted db u = true →
      recCompleted (ops.foldl applyOp db) u = true := by
  intro ops
  induction ops with
  | nil => intro db u h; exact h
  | cons op l ih =>
    intro db u h
    exact ih _ _ (latch_applyOp db op u h)

theorem register_sessions_of_completed (env : RegEnv) (now : Nat) (inp : RegInput)
    (db : DB) (h : recCompleted db inp.user_id = true) :
    (register_participation env now inp db).1.sessions = db.sessions := by
  have hguard : (!(((findRecord db inp.user_id).map (·.captcha_completed)).getD false)) =
      false := by
    rw [recCompleted_eq_getD] at h
    simp [h]
  unfold register_participation
  dsimp only
  repeat' split
  all_goals first
    | rfl
    | simp_all

/-- C2: `captcha_completed` is a one-way latch.  No operation of the service
(registration, captcha validation, captcha generation, winner selection,
session cleanup) ever turns a completed record back to incomplete — neither
in one step nor along any operation sequence — and a registration attempt
by a user whose record is completed leaves the session table untouched (no
new `CaptchaSession` is ever issued to that user again). -/
theorem c2_captcha_one_way_latch :
    (∀ (db : DB) (op : Op) (u : Int), recCompleted db u = true →
      recCompleted (applyOp db op) u = true) ∧
    (∀ (ops : List Op) (db : DB) (u : Int), recCompleted db u = true →
      recCompleted (ops.foldl applyOp db) u = true) ∧
    (∀ (env : RegEnv) (now : Nat) (inp : RegInput) (db : DB),
      recCompleted db inp.user_id = true →
      (register_participation env now inp db).1.sessions = db.sessions) :=
  ⟨latch_applyOp, latch_trace, register_sessions_of_completed⟩

/-- C2 (witness): user 7 is latched in `wRegDB`; a later registration for a
different giveaway leaves the record latched and the session table empty. -/
theorem c2_captcha_one_way_latch_witness :
    recCompleted (applyOp wRegDB (Op.register wRegEnv 50 wRegInp)) 7 = true ∧
    (register_participation wRegEnv 50 wRegInp wRegDB).1.sessions = wRegDB.sessions :=
  ⟨c2_captcha_one_way_latch.1 wRegDB (Op.register wRegEnv 50 wRegInp) 7 (by decide),
   c2_captcha_one_way_latch.2.2 wRegEnv 50 wRegInp wRegDB (by decide)⟩

/-! ### Claim theorems: captcha-completion commit order (C3) -/

theorem latchRecord_sets (db : DB) (u : Int) (now : Nat) :
    recCompleted (latchRecord db u now) u = true := by
  unfold latchRecord
  split
  case h_1 r heq =>
    have heq' : db.records.find? (fun t => t.user_id == u) = some r := heq
    have hru : (r.user_id == u) = true := by
      have hp := List.find?_some heq'
      simpa using hp
    split
    case isTrue hnc =>
      show recsCompleted _ u = true
      rw [show (updRecordRow db u (fun t =>
        { t with captcha_completed := true, captcha_completed_at := some now })).records =
        db.records.map (fun t => if t.user_id == u then
          { t with captcha_completed := true, captcha_completed_at := some now }
        else t) from rfl]
      unfold recsCompleted
      rw [find?_user_map _ _ (fun t => by
        by_cases ht : t.user_id == u <;> simp [ht])]
      rw [show findRecord db u = db.records.find? (fun t => t.user_id == u) from rfl] at heq
      rw [heq]
      have hru' : r.user_id = u := by simpa using hru
      simp [hru']
    case isFalse hc =>
      show recsCompleted db.records u = true
      unfold recsCompleted
      rw [show findRecord db u = db.records.find? (fun t => t.user_id == u) from rfl] at heq
      rw [heq]
      simpa using hc
  case h_2 heq =>
    show recsCompleted _ u = true
    unfold recsCompleted
    rw [show (addRecord db _).records = db.records ++ [_] from rfl]
    rw [List.find?_append]
    rw [show findRecord db u = db.records.find? (fun t => t.user_id == u) from rfl] at heq
    rw [heq]
    simp [List.find?_cons]

theorem latchRecord_participants (db : DB) (u : Int) (now : Nat) :
    (latchRecord db u now).participants = db.participants := by
  unfold latchRecord
  repeat' split
  all_goals rfl

theorem updSessionRow_participants (db : DB) (sid : Nat)
    (f : CaptchaSessionRow → CaptchaSessionRow) :
    (updSessionRow db sid f).participants = db.participants := rfl

theorem findParticipant_congr (db db' : DB) (g u : Int)
    (h : db'.participants = db.participants) :
    findParticipant db' g u = findParticipant db g u := by
  unfold findParticipant
  rw [h]

/-- C3 (counterexample): user 7 answers the captcha correctly but the
subscription check fails: the operation commits exactly one state, in which
the user's `captcha_completed` is true and no `Participant` row exists, and
terminates without writing one — an intermediate committed state the claim
says cannot exist. -/
theorem c3_commit_split_counterexample :
    (validate_captcha wEnvSubFail 60 wVCInp wSessionDB).2.1 = .subscriptionError ∧
    ((validate_captcha wEnvSubFail 60 wVCInp wSessionDB).2.2.map
      (fun d => (recCompleted d 7, (findParticipant d 1 7).isNone))) = [(true, true)] ∧
    (findParticipant (validate_captcha wEnvSubFail 60 wVCInp wSessionDB).1 1 7).isNone =
      true := by
  exact ⟨by decide, by decide, by decide⟩

/-- C3 (amended): when a captcha answer is validated correct, the operation
first commits `captcha_completed=true` (together with the completed
session) in a transaction of its own, before the giveaway lookup and
subscription check; the `Participant` row is only written by a later,
second commit.  So whenever the flow proceeds past answer validation there
IS an intermediate committed state with the latch set and no `Participant`
row for this (user, giveaway). -/
theorem c3_latch_commit_precedes_participant :
    ∀ (env : VCEnv) (now : Nat) (inp : VCInput) (db : DB) (s : CaptchaSessionRow),
      inp.valid = true →
      findActiveSession db inp.user_id inp.giveaway_id = some s →
      isExpired now s = false →
      canAttempt now s = true →
      validate_answer (some (toString inp.answer)) s.correct_answer = true →
      findParticipant db inp.giveaway_id inp.user_id = none →
      ∃ c1 rest, (validate_captcha env now inp db).2.2 = c1 :: rest ∧
        recCompleted c1 inp.user_id = true ∧
        findParticipant c1 inp.giveaway_id inp.user_id = none := by
  intro env now inp db s hv hfind hexp hcan hcor hnop
  have hnop' : db.participants.find?
      (fun p => p.giveaway_id == inp.giveaway_id && p.user_id == inp.user_id) = none := hnop
  unfold validate_captcha
  simp only [hv, hfind, hexp, hcan, hcor, Bool.not_true, Bool.false_eq_true, if_false,
    if_true]
  try dsimp only
  try simp only [findParticipant, latchRecord_participants]
  try dsimp only
  try simp only [hnop']
  repeat' split
  all_goals refine ⟨_, _, rfl, latchRecord_sets _ inp.user_id now, ?_⟩
  all_goals
    simp only [latchRecord_participants, updSessionRow_participants]
  all_goals exact hnop'

/-- C3 (witness): the amended theorem applied to the concrete
subscription-failure run of the counterexample. -/
theorem c3_latch_commit_precedes_participant_witness :
    ∃ c1 rest, (validate_captcha wEnvSubFail 60 wVCInp wSessionDB).2.2 = c1 :: rest ∧
      recCompleted c1 7 = true ∧
      findParticipant c1 1 7 = none :=
  c3_latch_commit_precedes_participant wEnvSubFail 60 wVCInp wSessionDB
    ⟨1, 7, 1, "Q", 4, 0, 3, false, 100, 50⟩ (by decide) (by decide) (by decide)
    (by decide) (by decide) (by decide)

/-! ### Claim theorems: attempt exhaustion (C7) and expiry (C8) -/

/-- C7: when the attempts counter reaches `max_attempts` through a wrong
answer, the operation answers with a brand-new question carrying the full
attempt allowance, and a fresh session is persisted with `attempts = 0` and
a full new timeout window (`expires_at = now + timeout`): the user is never
permanently blocked. -/
theorem c7_attempt_exhaustion_regenerates :
    ∀ (env : VCEnv) (now : Nat) (inp : VCInput) (db : DB) (s : CaptchaSessionRow),
      inp.valid = true →
      findActiveSession db inp.user_id inp.giveaway_id = some s →
      isExpired now s = false →
      canAttempt now s = true →
      validate_answer (some (toString inp.answer)) s.correct_answer = false →
      s.max_attempts ≤ s.attempts + 1 →
      (validate_captcha env now inp db).2.1 =
        .newQuestion env.newCaptcha.question env.newCaptcha.max_attempts ∧
      ∃ ns ∈ (validate_captcha env now inp db).1.sessions,
        ns.user_id = inp.user_id ∧ ns.giveaway_id = inp.giveaway_id ∧
        ns.question = env.newCaptcha.question ∧
        ns.correct_answer = env.newCaptcha.correct_answer ∧
        ns.attempts = 0 ∧ ns.max_attempts = 3 ∧ ns.completed = false ∧
        ns.expires_at = now + env.newCaptcha.timeout_minutes * 60 ∧
        ns.created_at = now := by
  intro env now inp db s hv hfind hexp hcan hcor hexh
  have hrem : s.max_attempts - (s.attempts + 1) ≤ 0 := by omega
  unfold validate_captcha
  simp only [hv, hfind, hexp, hcan, hcor, Bool.not_true, Bool.false_eq_true, if_false,
    if_true]
  try dsimp only
  rw [if_pos hrem]
  constructor
  · rfl
  · refine ⟨_, List.mem_append_right _ (List.mem_singleton.mpr rfl), ?_⟩
    exact ⟨rfl, rfl, rfl, rfl, rfl, rfl, rfl, rfl, rfl⟩

/-- C7 (witness): a session at 2 of 3 attempts receives a third wrong
answer at instant 60 and is regenerated with a fresh 10-minute window. -/
theorem c7_attempt_exhaustion_regenerates_witness :
    (validate_captcha wEnvVC 60 wVCInpWrong wExhaustDB).2.1 =
      .newQuestion wEnvVC.newCaptcha.question wEnvVC.newCaptcha.max_attempts ∧
    ∃ ns ∈ (validate_captcha wEnvVC 60 wVCInpWrong wExhaustDB).1.sessions,
      ns.user_id = wVCInpWrong.user_id ∧ ns.giveaway_id = wVCInpWrong.giveaway_id ∧
      ns.question = wEnvVC.newCaptcha.question ∧
      ns.correct_answer = wEnvVC.newCaptcha.correct_answer ∧
      ns.attempts = 0 ∧ ns.max_attempts = 3 ∧ ns.completed = false ∧
      ns.expires_at = 60 + wEnvVC.newCaptcha.timeout_minutes * 60 ∧
      ns.created_at = 60 :=
  c7_attempt_exhaustion_regenerates wEnvVC 60 wVCInpWrong wExhaustDB
    ⟨1, 7, 1, "Q", 4, 2, 3, false, 100, 50⟩ (by decide) (by decide) (by decide)
    (by decide) (by decide) (by decide)

/-- C8 (counterexample): validating against the expired session of
`wSessionDB` at instant 200 returns the distinct expired error but leaves
the store byte-for-byte unchanged: the expired session is still present,
not completed, and no superseding session was created — contradicting the
claim that the operation deletes or supersedes it. -/
theorem c8_expired_session_left_counterexample :
    validate_captcha wEnvVC 200 wVCInp wSessionDB = (wSessionDB, .expired, []) ∧
    wSessionDB.sessions = [⟨1, 7, 1, "Q", 4, 0, 3, false, 100, 50⟩] := by
  exact ⟨by decide, by decide⟩

/-- C8 (amended): validating an answer against an expired session fails
with the distinct `CAPTCHA_EXPIRED` error (not the wrong-answer result; no
attempts change, nothing committed), but the operation itself leaves the
expired session in place; it is removed only by the separate cleanup
operation (or superseded when the user later re-registers). -/
theorem c8_expired_distinct_error_session_left :
    ∀ (env : VCEnv) (now : Nat) (inp : VCInput) (db : DB) (s : CaptchaSessionRow),
      inp.valid = true →
      findActiveSession db inp.user_id inp.giveaway_id = some s →
      isExpired now s = true →
      validate_captcha env now inp db = (db, .expired, []) ∧
      s ∉ (cleanup_sessions now db).sessions := by
  intro env now inp db s hv hfind hexp
  constructor
  · unfold validate_captcha
    simp only [hv, hfind, hexp, Bool.not_true, Bool.false_eq_true, if_false, if_true]
  · intro hmem
    have hm := List.mem_filter.mp hmem
    have hlt : s.expires_at < now := by
      unfold isExpired at hexp
      simpa using hexp
    simp [hlt] at hm

/-- C8 (witness): the amended theorem at the concrete expired session. -/
theorem c8_expired_distinct_error_session_left_witness :
    validate_captcha wEnvVC 200 wVCInp wSessionDB = (wSessionDB, .expired, []) ∧
    (⟨1, 7, 1, "Q", 4, 0, 3, false, 100, 50⟩ : CaptchaSessionRow) ∉
      (cleanup_sessions 200 wSessionDB).sessions :=
  c8_expired_distinct_error_session_left wEnvVC 200 wVCInp wSessionDB
    ⟨1, 7, 1, "Q", 4, 0, 3, false, 100, 50⟩ (by decide) (by decide) (by decide)

/-! ### Claim theorems: winner-count validation (C10) -/

theorem validate_winner_count_ok_bounds (w : WCInput) (n : Int)
    (h : validate_winner_count w = .ok n) : 1 ≤ n ∧ n ≤ 1000 := by
  unfold validate_winner_count at h
  cases hp : pyIntOf w with
  | none =>
    simp only [hp] at h
    exact absurd h (by simp)
  | some m =>
    simp only [hp] at h
    by_cases h1 : m < 1
    · rw [if_pos h1] at h
      exact absurd h (by simp)
    · rw [if_neg h1] at h
      by_cases h2 : m > 1000
      · rw [if_pos h2] at h
        exact absurd h (by simp)
      · rw [if_neg h2] at h
        have hmn : m = n := by injection h
        omega

/-- C10: a select-winners request whose `winner_count` does not coerce to an
integer, or coerces below 1 or above 1000, is rejected by validation before
any persistence: the store is returned unchanged (no `is_winner` flag
touched, no `WinnerSelectionLog` row written) with a validation-error
response.  When validation passes and the pool is nonempty, the count the
route hands to the selector is at least 1 and at most the pool size, so the
selector's `winner_count <= 0` branch (which returns the empty list) is
unreachable from this endpoint: its guard is false and the selection is
nonempty. -/
theorem c10_winner_count_validation :
    (∀ (env : SWEnv) (inp : SWInput) (db : DB) (c : String),
      validate_winner_count inp.winner_count_raw = .error c →
      (select_winners_route env inp db).1 = db ∧
      ∃ c2, (select_winners_route env inp db).2 = .validationError c2) ∧
    (∀ (w : WCInput) (n : Nat) (wc0 : Int), validate_winner_count w = .ok wc0 →
      0 < n → 1 ≤ effectiveCount wc0 n ∧ ¬ effectiveCount wc0 n ≤ 0 ∧
        effectiveCount wc0 n ≤ (n : Int)) ∧
    (∀ (oracle : Nat → Nat) (ids : List Int) (wc : Int), ids ≠ [] → 1 ≤ wc →
      select_winners_cryptographic oracle ids wc ≠ []) := by
  refine ⟨?_, ?_, ?_⟩
  · intro env inp db c herr
    unfold select_winners_route
    cases hg : validate_giveaway_id inp.giveaway_id with
    | error c0 => exact ⟨rfl, c0, rfl⟩
    | ok g =>
      rw [herr]
      exact ⟨rfl, c, rfl⟩
  · intro w n wc0 hok hn
    have hb := validate_winner_count_ok_bounds w wc0 hok
    unfold effectiveCount
    by_cases hgt : wc0 > (n : Int)
    · rw [if_pos hgt]
      refine ⟨by omega, by omega, by omega⟩
    · rw [if_neg hgt]
      refine ⟨by omega, by omega, by omega⟩
  · intro oracle ids wc hne hwc
    intro hempty
    have hlen := crypto_length oracle ids wc
    rw [hempty] at hlen
    have hp : 0 < ids.length := List.length_pos.mpr hne
    simp only [List.length_nil] at hlen
    omega

/-- C10 (witness): the malformed request `winner_count = "abc"` leaves the
two-participant store unchanged with a validation error, and a validated
count of 2 over a pool of 2 yields an effective count of 2 and a nonempty
selection. -/
theorem c10_winner_count_validation_witness :
    ((select_winners_route wSWEnv ⟨1, .wStr "abc"⟩ wSWDB).1 = wSWDB ∧
      ∃ c2, (select_winners_route wSWEnv ⟨1, .wStr "abc"⟩ wSWDB).2 =
        .validationError c2) ∧
    (1 ≤ effectiveCount 2 2 ∧ ¬ effectiveCount 2 2 ≤ 0 ∧ effectiveCount 2 2 ≤ (2 : Int)) ∧
    select_winners_cryptographic (fun _ => 0) [(7 : Int), 8] 2 ≠ [] :=
  ⟨c10_winner_count_validation.1 wSWEnv ⟨1, .wStr "abc"⟩ wSWDB
      "INVALID_WINNER_COUNT_FORMAT" (by rfl),
   c10_winner_count_validation.2.1 (.wInt 2) 2 2 (by rfl) (by decide),
   c10_winner_count_validation.2.2 (fun _ => 0) [(7 : Int), 8] 2 (by decide) (by decide)⟩

/-! ### The winner-marking loop (C4, C6 machinery) -/

theorem band_left {a b : Bool} (h : (a && b) = true) : a = true := by
  cases a <;> simp_all

theorem band_right {a b : Bool} (h : (a && b) = true) : b = true := by
  cases a <;> cases b <;> simp_all

theorem matchRow_markRow (g uid : Int) (p : ParticipantRow) (ts : Nat) :
    matchRow g uid (markRow p ts) = matchRow g uid p := rfl

theorem markWinnerFirst_cases (g uid : Int) (ts : Nat) (ps : List ParticipantRow) :
    (markWinnerFirst g uid ts ps = ps ∧ ∀ p ∈ ps, matchRow g uid p = false) ∨
    ∃ l₁ r l₂, ps = l₁ ++ r :: l₂ ∧ matchRow g uid r = true ∧
      (∀ q ∈ l₁, matchRow g uid q = false) ∧
      markWinnerFirst g uid ts ps = l₁ ++ markRow r ts :: l₂ := by
  induction ps with
  | nil => exact Or.inl ⟨rfl, by simp⟩
  | cons p rest ih =>
    by_cases hp : matchRow g uid p
    · exact Or.inr ⟨[], p, rest, rfl, hp, by simp, by simp [markWinnerFirst, hp]⟩
    · have hp' : matchRow g uid p = false := by simpa using hp
      rcases ih with ⟨heq, hall⟩ | ⟨l₁, r, l₂, hsplit, hr, hl₁, heq⟩
      · refine Or.inl ⟨by simp [markWinnerFirst, hp', heq], ?_⟩
        intro q hq
        rcases List.mem_cons.mp hq with h | h
        · rw [h]; exact hp'
        · exact hall q h
      · refine Or.inr ⟨p :: l₁, r, l₂, by rw [List.cons_append, ← hsplit], hr, ?_, ?_⟩
        · intro q hq
          rcases List.mem_cons.mp hq with h | h
          · rw [h]; exact hp'
          · exact hl₁ q h
        · rw [List.cons_append]
          simp [markWinnerFirst, hp', heq]

theorem mem_markWinnerFirst_of_ne_uid (g uid : Int) (ts : Nat)
    (ps : List ParticipantRow) (p : ParticipantRow) (hm : p ∈ ps)
    (hne : p.user_id ≠ uid) : p ∈ markWinnerFirst g uid ts ps := by
  rcases markWinnerFirst_cases g uid ts ps with ⟨heq, _⟩ | ⟨l₁, r, l₂, hsplit, hr, _, heq⟩
  · rw [heq]; exact hm
  · rw [heq]
    rw [hsplit] at hm
    rcases List.mem_append.mp hm with h | h
    · exact List.mem_append_left _ h
    · rcases List.mem_cons.mp h with h2 | h2
      · exfalso
        apply hne
        rw [h2]
        have : (r.user_id == uid) = true := by
          have := hr
          unfold matchRow at this
          exact band_right this
        simpa using this
      · exact List.mem_append_right _ (List.mem_cons_of_mem _ h2)

theorem markWinnerFirst_marks (g uid : Int) (ts : Nat) (ps : List ParticipantRow)
    (hex : ∃ p ∈ ps, matchRow g uid p = true) :
    ∃ q ∈ markWinnerFirst g uid ts ps, matchRow g uid q = true ∧
      q.is_winner = true ∧ q.winner_selected_at = some ts := by
  rcases markWinnerFirst_cases g uid ts ps with ⟨_, hall⟩ | ⟨l₁, r, l₂, hsplit, hr, _, heq⟩
  · obtain ⟨p, hp, hpm⟩ := hex
    rw [hall p hp] at hpm
    exact absurd hpm (by simp)
  · refine ⟨markRow r ts, ?_, ?_, rfl, rfl⟩
    · rw [heq]
      exact List.mem_append_right _ (List.mem_cons_self _ _)
    · rw [matchRow_markRow]
      exact hr

theorem markWinnerFirst_preserves_match (g uid uid2 : Int) (ts : Nat)
    (ps : List ParticipantRow) (hex : ∃ p ∈ ps, matchRow g uid2 p = true) :
    ∃ p ∈ markWinnerFirst g uid ts ps, matchRow g uid2 p = true := by
  rcases markWinnerFirst_cases g uid ts ps with ⟨heq, _⟩ | ⟨l₁, r, l₂, hsplit, hr, _, heq⟩
  · rw [heq]; exact hex
  · obtain ⟨p, hp, hpm⟩ := hex
    rw [hsplit] at hp
    rw [heq]
    rcases List.mem_append.mp hp with h | h
    · exact ⟨p, List.mem_append_left _ h, hpm⟩
    · rcases List.mem_cons.mp h with h2 | h2
      · refine ⟨markRow r ts, List.mem_append_right _ (List.mem_cons_self _ _), ?_⟩
        rw [matchRow_markRow, ← h2]
        exact hpm
      · exact ⟨p, List.mem_append_right _ (List.mem_cons_of_mem _ h2), hpm⟩

theorem mem_markWinnerFirst_inv (g uid : Int) (ts : Nat) (ps : List ParticipantRow)
    (p : ParticipantRow) (hp : p ∈ markWinnerFirst g uid ts ps) :
    p ∈ ps ∨ (p.user_id = uid ∧ p.is_winner = true) := by
  rcases markWinnerFirst_cases g uid ts ps with ⟨heq, _⟩ | ⟨l₁, r, l₂, hsplit, hr, _, heq⟩
  · rw [heq] at hp; exact Or.inl hp
  · rw [heq] at hp
    rcases List.mem_append.mp hp with h | h
    · exact Or.inl (by rw [hsplit]; exact List.mem_append_left _ h)
    · rcases List.mem_cons.mp h with h2 | h2
      · right
        constructor
        · rw [h2]
          have : (r.user_id == uid) = true := band_right hr
          simpa using this
        · rw [h2]; rfl
      · exact Or.inl (by rw [hsplit]; exact List.mem_append_right _ (List.mem_cons_of_mem _ h2))

theorem countWinnersL_markWinnerFirst (g uid : Int) (ts : Nat)
    (ps : List ParticipantRow)
    (hex : ∃ p ∈ ps, matchRow g uid p = true)
    (hnw : ∀ p ∈ ps, matchRow g uid p = true → p.is_winner = false) :
    countWinnersL (markWinnerFirst g uid ts ps) g = countWinnersL ps g + 1 := by
  rcases markWinnerFirst_cases g uid ts ps with ⟨_, hall⟩ | ⟨l₁, r, l₂, hsplit, hr, _, heq⟩
  · obtain ⟨p, hp, hpm⟩ := hex
    rw [hall p hp] at hpm
    exact absurd hpm (by simp)
  · have hrg : (r.giveaway_id == g) = true := by
      have h1 := band_left hr
      unfold eligRow at h1
      exact band_left (band_left h1)
    have hrw : r.is_winner = false := hnw r
      (by rw [hsplit]; exact List.mem_append_right _ (List.mem_cons_self _ _)) hr
    rw [heq, hsplit]
    unfold countWinnersL
    rw [List.filter_append, List.filter_append, List.filter_cons, List.filter_cons]
    simp only [hrg, hrw, Bool.and_false, Bool.and_true, markRow]
    simp
    omega

theorem mem_markAll_of_not_mem (g : Int) (clock : Nat → Nat) :
    ∀ (sel : List Int) (k : Nat) (ps : List ParticipantRow) (p : ParticipantRow),
      p ∈ ps → p.user_id ∉ sel → p ∈ markAll g clock k sel ps := by
  intro sel
  induction sel with
  | nil => intro k ps p hp _; exact hp
  | cons uid0 rest ih =>
    intro k ps p hp hni
    have h1 : p.user_id ≠ uid0 := fun h => hni (by rw [h]; exact List.mem_cons_self _ _)
    have h2 : p.user_id ∉ rest := fun h => hni (List.mem_cons_of_mem _ h)
    exact ih (k + 1) _ p (mem_markWinnerFirst_of_ne_uid g uid0 (clock k) ps p hp h1) h2

theorem markAll_spec (g : Int) (clock : Nat → Nat) :
    ∀ (sel : List Int) (k : Nat) (ps : List ParticipantRow),
      sel.Nodup →
      (∀ uid ∈ sel, ∃ p ∈ ps, matchRow g uid p = true) →
      ∀ uid ∈ sel, ∃ q ∈ markAll g clock k sel ps, matchRow g uid q = true ∧
        q.is_winner = true ∧ ∃ j, k ≤ j ∧ j < k + sel.length ∧
        q.winner_selected_at = some (clock j) := by
  intro sel
  induction sel with
  | nil => intro k ps _ _ uid hu; exact absurd hu (by simp)
  | cons uid0 rest ih =>
    intro k ps hnd hex uid hu
    have hnd' : rest.Nodup := hnd.of_cons
    have hni : uid0 ∉ rest := by
      have := List.nodup_cons.mp hnd
      exact this.1
    rcases List.mem_cons.mp hu with rfl | hu'
    · obtain ⟨q, hq, hqm, hqw, hqts⟩ :=
        markWinnerFirst_marks g uid (clock k) ps (hex uid (List.mem_cons_self _ _))
      have hq_uid : q.user_id = uid := by
        have : (q.user_id == uid) = true := band_right hqm
        simpa using this
      have hmem : q ∈ markAll g clock (k + 1) rest (markWinnerFirst g uid (clock k) ps) :=
        mem_markAll_of_not_mem g clock rest (k + 1) _ q hq (by rw [hq_uid]; exact hni)
      exact ⟨q, hmem, hqm, hqw, k, le_refl k, by simp, hqts⟩
    · have hex' : ∀ u2 ∈ rest, ∃ p ∈ markWinnerFirst g uid0 (clock k) ps,
          matchRow g u2 p = true := by
        intro u2 hu2
        exact markWinnerFirst_preserves_match g uid0 u2 (clock k) ps (hex u2 (List.mem_cons_of_mem _ hu2))
      obtain ⟨q, hq, hqm, hqw, j, hj1, hj2, hjts⟩ := ih (k + 1) _ hnd' hex' uid hu'
      refine ⟨q, hq, hqm, hqw, j, by omega, ?_, hjts⟩
      simp only [List.length_cons]
      omega

theorem markAll_count (g : Int) (clock : Nat → Nat) :
    ∀ (sel : List Int) (k : Nat) (ps : List ParticipantRow),
      sel.Nodup →
      (∀ uid ∈ sel, ∃ p ∈ ps, matchRow g uid p = true) →
      (∀ p ∈ ps, p.giveaway_id = g → p.is_winner = true → p.user_id ∉ sel) →
      countWinnersL (markAll g clock k sel ps) g = countWinnersL ps g + sel.length := by
  intro sel
  induction sel with
  | nil => intro k ps _ _ _; simp [markAll]
  | cons uid0 rest ih =>
    intro k ps hnd hex hinv
    have hnd' : rest.Nodup := hnd.of_cons
    have hni : uid0 ∉ rest := (List.nodup_cons.mp hnd).1
    have hnw : ∀ p ∈ ps, matchRow g uid0 p = true → p.is_winner = false := by
      intro p hp hpm
      by_contra hw
      have hw' : p.is_winner = true := by
        cases hb : p.is_winner with
        | true => rfl
        | false => exact absurd hb hw
      have hpu : p.user_id = uid0 := by
        have : (p.user_id == uid0) = true := band_right hpm
        simpa using this
      have hpg : p.giveaway_id = g := by
        have h1 := band_left hpm
        unfold eligRow at h1
        have := band_left (band_left h1)
        simpa using this
      exact (hinv p hp hpg hw') (by rw [hpu]; exact List.mem_cons_self _ _)
    have hstep := countWinnersL_markWinnerFirst g uid0 (clock k) ps
      (hex uid0 (List.mem_cons_self _ _)) hnw
    have hex' : ∀ u2 ∈ rest, ∃ p ∈ markWinnerFirst g uid0 (clock k) ps,
        matchRow g u2 p = true := fun u2 hu2 =>
      markWinnerFirst_preserves_match g uid0 u2 (clock k) ps (hex u2 (List.mem_cons_of_mem _ hu2))
    have hinv' : ∀ p ∈ markWinnerFirst g uid0 (clock k) ps, p.giveaway_id = g →
        p.is_winner = true → p.user_id ∉ rest := by
      intro p hp hpg hw
      rcases mem_markWinnerFirst_inv g uid0 (clock k) ps p hp with h | ⟨hu, _⟩
      · intro hmem
        exact (hinv p h hpg hw) (List.mem_cons_of_mem _ hmem)
      · rw [hu]
        exact hni
    have := ih (k + 1) (markWinnerFirst g uid0 (clock k) ps) hnd' hex' hinv'
    show countWinnersL (markAll g clock (k + 1) rest (markWinnerFirst g uid0 (clock k) ps)) g =
      countWinnersL ps g + (uid0 :: rest).length
    rw [this, hstep]
    simp only [List.length_cons]
    omega

theorem bumpWinsAll_participants :
    ∀ (sel : List Int) (db : DB), (sel.foldl bumpWins db).participants = db.participants := by
  intro sel
  induction sel with
  | nil => intro db; rfl
  | cons a l ih => intro db; exact ih (bumpWins db a)

theorem bumpWinsAll_logs :
    ∀ (sel : List Int) (db : DB), (sel.foldl bumpWins db).logs = db.logs := by
  intro sel
  induction sel with
  | nil => intro db; rfl
  | cons a l ih => intro db; exact ih (bumpWins db a)

theorem exists_matchRow_of_mem_ids (ps : List ParticipantRow) (g uid : Int)
    (h : uid ∈ (ps.filter (eligRow g)).map (·.user_id)) :
    ∃ p ∈ ps, matchRow g uid p = true := by
  obtain ⟨p, hp, hpu⟩ := List.mem_map.mp h
  have hf := List.mem_filter.mp hp
  refine ⟨p, hf.1, ?_⟩
  unfold matchRow
  rw [hf.2]
  simp [hpu]

/-! ### Claim theorems: the winner audit invariant (C4) -/

/-- C4: a successful selection run over an eligible pool of size P (rows
with distinct user ids, none yet a winner) with validated requested count R
appends exactly one `WinnerSelectionLog` row whose `total_participants` is
P and whose `winner_count_selected` equals both the length of
`selected_user_ids` and min(R, P), and afterwards exactly
`winner_count_selected` `Participant` rows of that giveaway have
`is_winner=true`. -/
theorem c4_winner_audit_invariant :
    ∀ (env : SWEnv) (inp : SWInput) (db : DB) (wc0 : Int),
      (1 : Int) ≤ inp.giveaway_id →
      validate_winner_count inp.winner_count_raw = .ok wc0 →
      ((db.participants.filter (eligRow inp.giveaway_id)).map (·.user_id)).Nodup →
      db.participants.filter (eligRow inp.giveaway_id) ≠ [] →
      (∀ p ∈ db.participants, p.giveaway_id = inp.giveaway_id → p.is_winner = false) →
      ∃ log, (select_winners_route env inp db).1.logs = db.logs ++ [log] ∧
        log.total_participants = (db.participants.filter (eligRow inp.giveaway_id)).length ∧
        log.winner_count_selected = log.selected_user_ids.length ∧
        log.winner_count_selected =
          min wc0.toNat (db.participants.filter (eligRow inp.giveaway_id)).length ∧
        countWinners (select_winners_route env inp db).1 inp.giveaway_id =
          log.winner_count_selected := by
  intro env inp db wc0 hg hwc hnd hne hnow
  have hgid : validate_giveaway_id inp.giveaway_id = .ok inp.giveaway_id := by
    unfold validate_giveaway_id
    rw [if_neg (by omega)]
  have hempty : (eligibleParticipants db inp.giveaway_id).isEmpty = false := by
    unfold eligibleParticipants
    simpa [List.isEmpty_iff] using hne
  unfold select_winners_route
  simp only [hgid, hwc, hempty, Bool.false_eq_true, if_false]
  try dsimp only
  refine ⟨_, by rw [bumpWinsAll_logs]; rfl, rfl, rfl, ?_, ?_⟩
  · show (select_winners_cryptographic env.oracle
      ((eligibleParticipants db inp.giveaway_id).map (·.user_id))
      (effectiveCount wc0 (eligibleParticipants db inp.giveaway_id).length)).length =
      min wc0.toNat (db.participants.filter (eligRow inp.giveaway_id)).length
    rw [crypto_length, List.length_map]
    have hb := validate_winner_count_ok_bounds _ _ hwc
    have hP : 0 < (db.participants.filter (eligRow inp.giveaway_id)).length :=
      List.length_pos.mpr hne
    show min (effectiveCount wc0
        (db.participants.filter (eligRow inp.giveaway_id)).length).toNat
        (db.participants.filter (eligRow inp.giveaway_id)).length =
      min wc0.toNat (db.participants.filter (eligRow inp.giveaway_id)).length
    unfold effectiveCount
    by_cases hgt : wc0 > ((db.participants.filter (eligRow inp.giveaway_id)).length : Int)
    · rw [if_pos hgt]
      omega
    · rw [if_neg hgt]
  · have hsub := crypto_subperm env.oracle
      ((eligibleParticipants db inp.giveaway_id).map (·.user_id))
      (effectiveCount wc0 (eligibleParticipants db inp.giveaway_id).length)
    have hselnd := subperm_nodup hsub hnd
    have hex : ∀ uid ∈ select_winners_cryptographic env.oracle
        ((eligibleParticipants db inp.giveaway_id).map (·.user_id))
        (effectiveCount wc0 (eligibleParticipants db inp.giveaway_id).length),
        ∃ p ∈ db.participants, matchRow inp.giveaway_id uid p = true := by
      intro uid hu
      exact exists_matchRow_of_mem_ids db.participants inp.giveaway_id uid
        (hsub.subset hu)
    have hinv : ∀ p ∈ db.participants, p.giveaway_id = inp.giveaway_id →
        p.is_winner = true → p.user_id ∉ select_winners_cryptographic env.oracle
          ((eligibleParticipants db inp.giveaway_id).map (·.user_id))
          (effectiveCount wc0 (eligibleParticipants db inp.giveaway_id).length) := by
      intro p hp hpg hw
      rw [hnow p hp hpg] at hw
      exact absurd hw (by simp)
    have hzero : countWinnersL db.participants inp.giveaway_id = 0 := by
      unfold countWinnersL
      rw [List.length_eq_zero]
      rw [List.filter_eq_nil_iff]
      intro p hp
      by_cases hpg : p.giveaway_id = inp.giveaway_id
      · simp [hnow p hp hpg]
      · simp [hpg]
    show countWinnersL ((select_winners_cryptographic env.oracle
        ((eligibleParticipants db inp.giveaway_id).map (·.user_id))
        (effectiveCount wc0 (eligibleParticipants db inp.giveaway_id).length)).foldl
          bumpWins _).participants inp.giveaway_id = _
    rw [bumpWinsAll_participants]
    show countWinnersL (markAll inp.giveaway_id env.clock 1 _ db.participants)
      inp.giveaway_id = _
    rw [markAll_count inp.giveaway_id env.clock _ 1 db.participants hselnd hex hinv]
    rw [hzero]
    simp

/-- C4 (witness): the run of the audit invariant on the two-person pool of
`wSWDB` with requested count 2. -/
theorem c4_winner_audit_invariant_witness :
    ∃ log, (select_winners_route wSWEnv ⟨1, .wInt 2⟩ wSWDB).1.logs = wSWDB.logs ++ [log] ∧
      log.total_participants = (wSWDB.participants.filter (eligRow 1)).length ∧
      log.winner_count_selected = log.selected_user_ids.length ∧
      log.winner_count_selected =
        min (Int.toNat 2) (wSWDB.participants.filter (eligRow 1)).length ∧
      countWinners (select_winners_route wSWEnv ⟨1, .wInt 2⟩ wSWDB).1 1 =
        log.winner_count_selected :=
  c4_winner_audit_invariant wSWEnv ⟨1, .wInt 2⟩ wSWDB 2 (by decide) (by rfl)
    (by decide) (by decide) (by decide)

/-! ### Claim theorems: winner timestamps (C6) -/

/-- C6 (counterexample): one selection run over the two-person pool with an
advancing clock marks both selected rows `is_winner=true` but gives them
DIFFERENT `winner_selected_at` values (`some 1` and `some 2`): the code
calls `datetime.utcnow()` separately for each winner instead of sharing one
reading per run. -/
theorem c6_shared_timestamp_counterexample :
    ((select_winners_route wSWEnv ⟨1, .wInt 2⟩ wSWDB).1.participants.map
      (fun p => (p.is_winner, p.winner_selected_at))) =
      [(true, some 1), (true, some 2)] ∧
    (some 1 : Option Nat) ≠ some 2 := by
  exact ⟨by decide, by decide⟩

/-- C6 (amended): in every successful selection run, each selected user's
row is marked `is_winner=true`, and its `winner_selected_at` is set from a
`datetime.utcnow()` reading of the run taken separately for that winner
(clock calls 1..n of the run): the values coincide only when those separate
readings do, not by construction. -/
theorem c6_per_winner_timestamp :
    ∀ (env : SWEnv) (inp : SWInput) (db : DB) (wc0 : Int),
      (1 : Int) ≤ inp.giveaway_id →
      validate_winner_count inp.winner_count_raw = .ok wc0 →
      ((db.participants.filter (eligRow inp.giveaway_id)).map (·.user_id)).Nodup →
      db.participants.filter (eligRow inp.giveaway_id) ≠ [] →
      ∀ uid ∈ select_winners_cryptographic env.oracle
          ((db.participants.filter (eligRow inp.giveaway_id)).map (·.user_id))
          (effectiveCount wc0 (db.participants.filter (eligRow inp.giveaway_id)).length),
        ∃ q ∈ (select_winners_route env inp db).1.participants,
          matchRow inp.giveaway_id uid q = true ∧ q.is_winner = true ∧
          ∃ j, 1 ≤ j ∧
            j ≤ (select_winners_cryptographic env.oracle
              ((db.participants.filter (eligRow inp.giveaway_id)).map (·.user_id))
              (effectiveCount wc0
                (db.participants.filter (eligRow inp.giveaway_id)).length)).length ∧
            q.winner_selected_at = some (env.clock j) := by
  intro env inp db wc0 hg hwc hnd hne uid hu
  have hgid : validate_giveaway_id inp.giveaway_id = .ok inp.giveaway_id := by
    unfold validate_giveaway_id
    rw [if_neg (by omega)]
  have hempty : (eligibleParticipants db inp.giveaway_id).isEmpty = false := by
    unfold eligibleParticipants
    simpa [List.isEmpty_iff] using hne
  have hsub := crypto_subperm env.oracle
    ((db.participants.filter (eligRow inp.giveaway_id)).map (·.user_id))
    (effectiveCount wc0 (db.participants.filter (eligRow inp.giveaway_id)).length)
  have hselnd := subperm_nodup hsub hnd
  have hex : ∀ u2 ∈ select_winners_cryptographic env.oracle
      ((db.participants.filter (eligRow inp.giveaway_id)).map (·.user_id))
      (effectiveCount wc0 (db.participants.filter (eligRow inp.giveaway_id)).length),
      ∃ p ∈ db.participants, matchRow inp.giveaway_id u2 p = true := by
    intro u2 hu2
    exact exists_matchRow_of_mem_ids db.participants inp.giveaway_id u2 (hsub.subset hu2)
  obtain ⟨q, hq, hqm, hqw, j, hj1, hj2, hts⟩ :=
    markAll_spec inp.giveaway_id env.clock _ 1 db.participants hselnd hex uid hu
  refine ⟨q, ?_, hqm, hqw, j, hj1, by omega, hts⟩
  unfold select_winners_route
  simp only [hgid, hwc, hempty, Bool.false_eq_true, if_false]
  try dsimp only
  show q ∈ (List.foldl bumpWins _ _).participants
  rw [bumpWinsAll_participants]
  exact hq

/-- C6 (witness): the amended theorem at the concrete two-winner run, for
selected user 7. -/
theorem c6_per_winner_timestamp_witness :
    ∃ q ∈ (select_winners_route wSWEnv ⟨1, .wInt 2⟩ wSWDB).1.participants,
      matchRow 1 7 q = true ∧ q.is_winner = true ∧
      ∃ j, 1 ≤ j ∧
        j ≤ (select_winners_cryptographic wSWEnv.oracle
          ((wSWDB.participants.filter (eligRow 1)).map (·.user_id))
          (effectiveCount 2 (wSWDB.participants.filter (eligRow 1)).length)).length ∧
        q.winner_selected_at = some (wSWEnv.clock j) :=
  c6_per_winner_timestamp wSWEnv ⟨1, .wInt 2⟩ wSWDB 2 (by decide) (by rfl)
    (by decide) (by decide) 7 (by decide)

end Telegive
